import Mathlib

/-!
Shallow embedding of the command dispatch and instrumentation subsystem of
the bot-template repository, together with theorems settling the claims of
its specification.

Embedded source files:
  * `src/monitoring/index.ts` — `CommandManager` (registry, cooldowns,
    `handlePrefixCommand`, `handleSlashCommand`);
  * `src/monitoring/Performance.ts` — `Performance.measure`;
  * `src/monitoring/Analytics.ts` — `getCommandStats`, `getMostUsedCommands`;
  * `src/types/command.ts` — the `Command` interface.

Modelling conventions:
  * JavaScript numbers that the code only ever uses as non-negative integer
    millisecond timestamps or counts are embedded as `Nat`.
  * JavaScript truthiness on such a number (`if (command.cooldown)`,
    `if (usage.duration)`, `if (cooldownEnd)`) is `≠ 0`; truthiness on a
    string (`!command.name`) is `≠ ""`; truthiness on an optional value is
    `Option.isSome` of the embedding.
  * A discord.js `Collection` (an insertion-ordered `Map`) is embedded as an
    association list; `set` overwrites in place or appends, `get` is `find?`,
    `filter`/`map` traverse in insertion order.
  * Promises and `await` are sequentialised away: each embedded entry point
    is a pure function from its inputs (plus the current clock value) to an
    explicit record of its observable effects (replies sent, cooldown store
    after the call, whether a handler body was invoked, records handed to
    the persistence layer).
-/

namespace BotTemplate

/-- Outcome of awaiting an optional handler body (`execute` /
`slashExecute` in `src/types/command.ts`): it either resolves or rejects.
The dispatcher never inspects a resolved value, so the outcome is all the
embedding needs. -/
inductive HandlerOutcome where
  | ok : HandlerOutcome
  | threw : HandlerOutcome
deriving DecidableEq, Repr

/-- The `Command` interface of `src/types/command.ts`, restricted to the
fields the dispatcher reads.  `cooldown : Nat` embeds the optional
`cooldown?: number`, with `0` standing for both `undefined` and `0`
(JavaScript truthiness identifies them at every use site).  The optional
handler bodies are embedded as optional outcomes. -/
structure Command where
  name : String
  aliases : List String := []
  description : String := "a command"
  category : Option String := none
  adminOnly : Bool := false
  guildOnly : Bool := false
  cooldown : Nat := 0
  execute : Option HandlerOutcome := none
  slashExecute : Option HandlerOutcome := none
deriving DecidableEq, Repr

/-- The `commands` collection of `CommandManager`: insertion-ordered map
from lower-cased name-or-alias to command. -/
abbrev Registry := List (String × Command)

/-- The `cooldowns` collection of `CommandManager`: insertion-ordered map
from the string key `` `${userId}-${commandName}` `` to the expiry
timestamp in milliseconds. -/
abbrev Cooldowns := List (String × Nat)

/-- Embedding of `String.prototype.toLowerCase()` on the ASCII command names this bot
uses, written over the character list so that it evaluates by kernel
reduction. -/
def toLowerStr (s : String) : String :=
  String.mk (s.data.map Char.toLower)

/-- Embedding of `Map.set` on an insertion-ordered map: overwrite in place when the key
is present, append otherwise. -/
def mapSet (m : List (String × α)) (k : String) (v : α) : List (String × α) :=
  if m.any (fun p => p.1 == k) then
    m.map (fun p => if p.1 == k then (k, v) else p)
  else m ++ [(k, v)]

/-- Embedding of `Map.get` on an insertion-ordered map. -/
def mapGet (m : List (String × α)) (k : String) : Option α :=
  (m.find? (fun p => p.1 == k)).map (fun p => p.2)

/-- Embedding of `CommandManager.registerCommand` (`src/monitoring/index.ts` 51–69):
skip commands with a falsy name or description, otherwise insert under the
lower-cased name and under every lower-cased alias. -/
def registerCommand (m : Registry) (c : Command) : Registry :=
  if c.name == "" || c.description == "" then m
  else
    c.aliases.foldl (fun acc a => mapSet acc (toLowerStr a) c)
      (mapSet m (toLowerStr c.name) c)

/-- Embedding of `CommandManager.registerCommands`: `registerCommand` for each element
in input order. -/
def registerCommands (m : Registry) (cs : List Command) : Registry :=
  cs.foldl registerCommand m

/-- Embedding of `CommandManager.getCommand`: case-insensitive lookup. -/
def getCommand (m : Registry) (name : String) : Option Command :=
  mapGet m (toLowerStr name)

/-- Embedding of `CommandManager.getCommandsByCategory` (`src/monitoring/index.ts`
103–107): filter the (alias-inclusive) collection by category and return
the values. -/
def getCommandsByCategory (m : Registry) (category : String) : List Command :=
  (m.filter (fun p => p.2.category == some category)).map (fun p => p.2)

/-- The `CommandUsageData` shape of `src/monitoring/Analytics.ts` (the
record handed to `Analytics.recordCommandUsage`), restricted to the fields
the claims mention. -/
structure CommandUsageData where
  guildId : Option String := none
  userId : String
  command : String
  type : String
  success : Bool
  duration : Option Nat := none
deriving DecidableEq, Repr

/-- The `metricType` union of `src/monitoring/Performance.ts`. -/
inductive MetricType where
  | command_execution : MetricType
  | database_query : MetricType
  | api_call : MetricType
  | event_handler : MetricType
  | other : MetricType
deriving DecidableEq, Repr

/-- The `PerformanceMetricData` shape of `src/monitoring/Performance.ts`
(optional `metadata` omitted: no embedded call site supplies it). -/
structure PerformanceMetricData where
  metricType : MetricType
  name : String
  duration : Nat
  success : Bool
deriving DecidableEq, Repr

/-- The fields of a discord.js `Message` read by `handlePrefixCommand`.
`memberIsAdmin = none` embeds a `null` `message.member`; `some b` embeds a
present member whose `permissions.has(Administrator)` is `b`. -/
structure Message where
  content : String
  authorId : String
  guild : Option String := none
  memberIsAdmin : Option Bool := none
deriving DecidableEq, Repr

/-- Observable effects of one `handlePrefixCommand` call: replies the
dispatcher sent via `message.reply`, the cooldown store after the call,
whether a handler body was invoked, and every record the dispatcher handed
to the persistence layer (`Analytics.recordCommandUsage` /
`Performance.recordMetric`).  The source dispatcher contains no such
persistence call, so the traces it builds are empty. -/
structure DispatchResult where
  replies : List String
  cooldowns : Cooldowns
  handlerInvoked : Bool
  usageWrites : List CommandUsageData
  perfWrites : List PerformanceMetricData
deriving DecidableEq, Repr

/-- The whitespace characters removed by `String.prototype.trim()` (the
ones that can occur in this bot's messages). -/
def isJsWs (c : Char) : Bool :=
  c == ' ' || c == '\t' || c == '\n' || c == '\r'

/-- Embedding of `trim()` over the character list. -/
def trimChars (l : List Char) : List Char :=
  ((l.dropWhile isJsWs).reverse.dropWhile isJsWs).reverse

/-- Embedding of `split(/ +/)` over an already-trimmed character list, dropping empty
tokens; `cur` holds the (reversed) characters of the token being read. -/
def splitTokens : List Char → List Char → List String
  | [], cur => if cur == [] then [] else [String.mk cur.reverse]
  | c :: cs, cur =>
    if c == ' ' then
      (if cur == [] then [] else [String.mk cur.reverse]) ++ splitTokens cs []
    else splitTokens cs (c :: cur)

/-- Embedding of `message.content.slice(prefix.length).trim().split(/ +/)` followed by
the falsy-shift check: the space-separated tokens of the content with the
trigger string removed.  (JavaScript yields `[""]` for an empty remainder
and the dispatcher then returns on the falsy shifted element; dropping
empty tokens here yields the same dispatch behaviour.) -/
def parseArgs (content : String) (pfxLength : Nat) : List String :=
  splitTokens (trimChars (content.data.drop pfxLength)) []

/-- The gate of `src/monitoring/index.ts` line 130:
`command.guildOnly && !message.guild`. -/
def guildGateRejects (c : Command) (msg : Message) : Bool :=
  c.guildOnly && msg.guild.isNone

/-- The gate of `src/monitoring/index.ts` lines 136–141: the reply is sent
iff `command.adminOnly` is set, `message.member` is non-null, and the
member lacks the Administrator permission — i.e. iff `memberIsAdmin` is
`some false`. -/
def adminGateRejects (c : Command) (msg : Message) : Bool :=
  c.adminOnly && msg.memberIsAdmin == some false

/-- The cooldown key `` `${userId}-${commandName}` `` of
`src/monitoring/index.ts` line 145 (note: built from the command's
canonical `name`, not the typed alias). -/
def cooldownKey (userId commandName : String) : String :=
  userId ++ "-" ++ commandName

/-- Embedding of `CommandManager.handlePrefixCommand` (`src/monitoring/index.ts`
114–176).  `now` is the value of `Date.now()` during the call.  The
not-expired test embeds `cooldownEnd && Date.now() < cooldownEnd`: on
`Nat`, `now < cooldownEnd` already forces `cooldownEnd ≠ 0`, so the
truthiness conjunct is redundant.  `timeLeft` is
`Math.ceil((cooldownEnd - Date.now()) / 1000)`. -/
def handlePrefixCommand (reg : Registry) (cds : Cooldowns) (msg : Message)
    (pfx : String) (now : Nat) : DispatchResult :=
  match parseArgs msg.content pfx.length with
  | [] => ⟨[], cds, false, [], []⟩
  | rawName :: _args =>
    match getCommand reg (toLowerStr rawName) with
    | none => ⟨[], cds, false, [], []⟩
    | some command =>
      if guildGateRejects command msg then
        ⟨["This command can only be used in a server."], cds, false, [], []⟩
      else if adminGateRejects command msg then
        ⟨["You do not have permission to use this command."], cds, false, [], []⟩
      else
        let key := cooldownKey msg.authorId command.name
        let rejected : Option Nat :=
          if command.cooldown != 0 then
            match mapGet cds key with
            | some cooldownEnd =>
              if now < cooldownEnd then some ((cooldownEnd - now + 999) / 1000)
              else none
            | none => none
          else none
        match rejected with
        | some timeLeft =>
          ⟨["Please wait " ++ toString timeLeft ++
              " second(s) before using this command again."],
            cds, false, [], []⟩
        | none =>
          let cds1 :=
            if command.cooldown != 0 then
              mapSet cds key (now + command.cooldown * 1000)
            else cds
          match command.execute with
          | some HandlerOutcome.ok => ⟨[], cds1, true, [], []⟩
          | some HandlerOutcome.threw =>
            ⟨["An error occurred while executing the command."], cds1, true, [], []⟩
          | none =>
            ⟨["This command does not support prefix execution."], cds1, false, [], []⟩

/-- The fields of a `ChatInputCommandInteraction` read by
`handleSlashCommand`.  `memberPermsAdmin = none` embeds a `null`
`interaction.memberPermissions`; `some b` embeds present permissions whose
`has(Administrator)` is `b`. -/
structure Interaction where
  commandName : String
  guild : Option String := none
  memberPermsAdmin : Option Bool := none
  replied : Bool := false
  deferred : Bool := false
deriving DecidableEq, Repr

/-- A reply sent through the interaction: its content, whether it was
flagged ephemeral, and whether it was sent with `followUp` rather than
`reply`. -/
structure SlashReply where
  content : String
  ephemeral : Bool
  followUp : Bool := false
deriving DecidableEq, Repr

/-- Observable effects of one `handleSlashCommand` call (same reading as
`DispatchResult`; the slash path never touches the cooldown store, and the
source contains no persistence call). -/
structure SlashResult where
  replies : List SlashReply
  cooldowns : Cooldowns
  handlerInvoked : Bool
  usageWrites : List CommandUsageData
  perfWrites : List PerformanceMetricData
deriving DecidableEq, Repr

/-- Embedding of `CommandManager.handleSlashCommand` (`src/monitoring/index.ts`
182–234).  The unknown-command branch covers `!command ||
!command.slashExecute`; the admin gate denies when `memberPermissions` is
null or lacks Administrator (`!memberPermissions ||
!memberPermissions.has(...)`); a handler exception is answered with
`followUp` iff `interaction.replied || interaction.deferred`. -/
def handleSlashCommand (reg : Registry) (cds : Cooldowns) (i : Interaction) :
    SlashResult :=
  let unavailable : SlashResult :=
    ⟨[⟨"This command is not available.", true, false⟩], cds, false, [], []⟩
  match getCommand reg (toLowerStr i.commandName) with
  | none => unavailable
  | some command =>
    match command.slashExecute with
    | none => unavailable
    | some outcome =>
      if command.guildOnly && i.guild.isNone then
        ⟨[⟨"This command can only be used in a server.", true, false⟩],
          cds, false, [], []⟩
      else if command.adminOnly && !(i.memberPermsAdmin == some true) then
        ⟨[⟨"You do not have permission to use this command.", true, false⟩],
          cds, false, [], []⟩
      else
        match outcome with
        | HandlerOutcome.ok => ⟨[], cds, true, [], []⟩
        | HandlerOutcome.threw =>
          ⟨[⟨"An error occurred while executing the command.", true,
              i.replied || i.deferred⟩], cds, true, [], []⟩

/-- The cooldown check-and-arm logic of `handlePrefixCommand`
(`src/monitoring/index.ts` 143–156) extracted over an explicit store and
clock, for the given `durationSeconds = command.cooldown`.  The first
component is the rejection (`some timeLeft` = not ready, `none` = ready);
the second is the store after the call: armed to `now + durationSeconds *
1000` when ready, untouched when not ready. -/
def checkAndArm (cds : Cooldowns) (userId commandName : String)
    (durationSeconds : Nat) (now : Nat) : Option Nat × Cooldowns :=
  let key := cooldownKey userId commandName
  match mapGet cds key with
  | some cooldownEnd =>
    if now < cooldownEnd then
      (some ((cooldownEnd - now + 999) / 1000), cds)
    else (none, mapSet cds key (now + durationSeconds * 1000))
  | none => (none, mapSet cds key (now + durationSeconds * 1000))

/-- Embedding of `Performance.measure` (`src/monitoring/Performance.ts` 50–75).
`op` is the outcome of awaiting `fn()`; `d1` is the milliseconds elapsed
when the `finally` block reads `Date.now()` (so the recorded duration);
`d2` is the further milliseconds elapsed — across the awaited
`recordMetric` — before the return statement reads `Date.now()` again.
The result pairs the records handed to `recordMetric` with either the
re-raised original exception or the returned `{ result, duration }`. -/
def measure (op : Except ε α) (d1 d2 : Nat) (metricType : MetricType)
    (name : String) : List PerformanceMetricData × Except ε (α × Nat) :=
  match op with
  | Except.ok a => ([⟨metricType, name, d1, true⟩], Except.ok (a, d1 + d2))
  | Except.error e => ([⟨metricType, name, d1, false⟩], Except.error e)

/-- A stored `commandUsage` row (`prisma/schema`), restricted to the
columns the analytics queries read. -/
structure UsageRow where
  guildId : Option String := none
  userId : String := "u"
  command : String
  success : Bool := true
  duration : Option Nat := none
  createdAt : Nat := 0
deriving DecidableEq, Repr

/-- Embedding of the `prisma.guild.findUnique` discord-id lookup over the guild table,
embedded as a list of `(discordId, id)` pairs, returning the row id. -/
def resolveGuildDbId (guilds : List (String × String)) (discordId : String) :
    Option String :=
  (guilds.find? (fun p => p.1 == discordId)).map (fun p => p.2)

/-- The per-command accumulator of `Analytics.getCommandStats`
(`{count, successes, durations}`). -/
structure StatsAcc where
  count : Nat
  successes : Nat
  durations : List Nat
deriving DecidableEq, Repr

/-- The truthiness test `if (usage.duration)` of
`src/monitoring/Analytics.ts` line 206: a present, nonzero duration.  A
stored duration of `0` is falsy in JavaScript and is skipped. -/
def truthyDuration (r : UsageRow) : Option Nat :=
  match r.duration with
  | some d => if d != 0 then some d else none
  | none => none

/-- One loop iteration of the aggregation in `getCommandStats`:
`stat.count++`, conditional `successes++`, conditional
`durations.push(duration)`. -/
def statsUpdate (e : StatsAcc) (r : UsageRow) : StatsAcc :=
  { count := e.count + 1
    successes := e.successes + (if r.success then 1 else 0)
    durations := e.durations ++ (truthyDuration r).toList }

/-- The `stats` map update of `getCommandStats` (`src/monitoring/Analytics.ts`
198–207): create a zero entry on first sight of the command, then update it
in place. -/
def statsBump (acc : List (String × StatsAcc)) (r : UsageRow) :
    List (String × StatsAcc) :=
  if acc.any (fun p => p.1 == r.command) then
    acc.map (fun p => if p.1 == r.command then (p.1, statsUpdate p.2 r) else p)
  else acc ++ [(r.command, statsUpdate ⟨0, 0, []⟩ r)]

/-- One result row of `getCommandStats`; the rate and average are exact
rationals. -/
structure CommandStat where
  command : String
  count : Nat
  successRate : ℚ
  avgDuration : ℚ
deriving DecidableEq, Repr

/-- Embedding of `Analytics.getCommandStats` (`src/monitoring/Analytics.ts` 158–222).
`since` stands for the computed window start (`new Date()` minus `days`
days) and `createdAt: {gte: since}` is `since ≤ createdAt`; the guild
filter is added only when the discord id resolves in the guild table.  The
final map computes `successes/count` (0 on an empty group, unreachable)
and the average of the pushed durations (0 when none were pushed). -/
def getCommandStats (store : List UsageRow) (guilds : List (String × String))
    (guildId : Option String) (since : Nat) : List CommandStat :=
  let whereGuild : Option String :=
    match guildId with
    | some gid => resolveGuildDbId guilds gid
    | none => none
  let usages := store.filter (fun r =>
    decide (since ≤ r.createdAt) &&
      (match whereGuild with
       | some id => r.guildId == some id
       | none => true))
  let stats := usages.foldl statsBump []
  stats.map (fun p =>
    { command := p.1
      count := p.2.count
      successRate :=
        if p.2.count > 0 then (p.2.successes : ℚ) / (p.2.count : ℚ) else 0
      avgDuration :=
        if p.2.durations.length > 0 then
          (p.2.durations.sum : ℚ) / (p.2.durations.length : ℚ)
        else 0 })

/-- Group-count update for `groupBy({by: [command], _count})`: groups
enumerate in first-occurrence order. -/
def countBump (acc : List (String × Nat)) (cmd : String) : List (String × Nat) :=
  if acc.any (fun p => p.1 == cmd) then
    acc.map (fun p => if p.1 == cmd then (p.1, p.2 + 1) else p)
  else acc ++ [(cmd, 1)]

/-- Insertion into a list sorted descending by count, placed after every
element of equal count (stability). -/
def insertByCountDesc (x : String × Nat) :
    List (String × Nat) → List (String × Nat)
  | [] => [x]
  | y :: ys => if y.2 < x.2 then x :: y :: ys else y :: insertByCountDesc x ys

/-- Stable descending sort on counts, modelling
`orderBy: {_count: {command: 'desc'}}`: the query orders by count only and
requests no tiebreak, so ties keep the group enumeration
(first-occurrence) order. -/
def sortByCountDesc (l : List (String × Nat)) : List (String × Nat) :=
  l.foldl (fun acc x => insertByCountDesc x acc) []

/-- Embedding of `Analytics.getMostUsedCommands` (`src/monitoring/Analytics.ts`
262–300): optional guild filter (added only when the discord id resolves),
group by command with counts, order descending by count, take `limit`. -/
def getMostUsedCommands (store : List UsageRow)
    (guilds : List (String × String)) (limit : Nat) (guildId : Option String) :
    List (String × Nat) :=
  let whereGuild : Option String :=
    match guildId with
    | some gid => resolveGuildDbId guilds gid
    | none => none
  let rows := store.filter (fun r =>
    match whereGuild with
    | some id => r.guildId == some id
    | none => true)
  let groups := rows.foldl (fun acc r => countBump acc r.command) []
  (sortByCountDesc groups).take limit

/-- The `successes` tally of a group: the number of rows with `success` set
(`if (usage.success) stat.successes++`). -/
def successCount (rows : List UsageRow) : Nat :=
  (rows.filter (fun r => r.success)).length

/-- The durations a group accumulates: one entry per row whose `duration`
passes the JavaScript truthiness test (present and nonzero). -/
def keptDurations (rows : List UsageRow) : List Nat :=
  rows.filterMap truthyDuration

/-- Fixture: a category-`util` command with one alias and both handler
bodies. -/
def pingCmd : Command :=
  { name := "ping", aliases := ["p"], category := some "util",
    execute := some HandlerOutcome.ok,
    slashExecute := some HandlerOutcome.ok }

/-- Fixture: an admin-only text command. -/
def purgeCmd : Command :=
  { name := "purge", adminOnly := true, execute := some HandlerOutcome.ok }

/-- Fixture: a guild-only text command. -/
def serverCmd : Command :=
  { name := "serverinfo", guildOnly := true, execute := some HandlerOutcome.ok }

/-- Fixture: a 5-second-cooldown command with an alias whose text handler
throws. -/
def slowCmd : Command :=
  { name := "slow", aliases := ["s"], cooldown := 5,
    execute := some HandlerOutcome.threw }

/-- Fixture: usage rows with counts `{b: 3, a: 3, c: 1}`, `b` first seen
before `a`. -/
def c8Records : List UsageRow :=
  [ { command := "b" }, { command := "b" }, { command := "b" },
    { command := "a" }, { command := "a" }, { command := "a" },
    { command := "c" } ]

/-- Fixture: two successful usages of one command, one carrying duration
`0` and one carrying duration `10`. -/
def c9Rows : List UsageRow :=
  [ { command := "a", success := true, duration := some 0 },
    { command := "a", success := true, duration := some 10 } ]

/-- C1.  The spec says every gate-passing dispatch is bracketed by the
instrumentation wrapper and persists a usage and/or performance record on
completion, but neither dispatcher entry point contains any
`Analytics.recordCommandUsage` / `Performance.measure` /
`Performance.recordMetric` call: at a gate-passing text trigger and a
gate-passing structured trigger the handler body runs and the set of
records handed to the persistence layer is empty on both paths. -/
theorem c1_dispatch_persists_no_records :
    (handlePrefixCommand (registerCommand [] pingCmd) []
        { content := "!ping", authorId := "u1", guild := some "g",
          memberIsAdmin := some true } "!" 0
      = { replies := [], cooldowns := [], handlerInvoked := true,
          usageWrites := [], perfWrites := [] })
  ∧ (handleSlashCommand (registerCommand [] pingCmd) []
        { commandName := "ping", guild := some "g",
          memberPermsAdmin := some true }
      = { replies := [], cooldowns := [], handlerInvoked := true,
          usageWrites := [], perfWrites := [] }) :=
  ⟨by decide, by decide⟩

/-- C3.  The admin gate of the text path is
`if (command.adminOnly && message.member) { ... }`: when `message.member`
is null the whole permission check is skipped, so an actor with no
administrative capability who triggers an `adminOnly` command outside a
guild membership context gets no permission-denied reply and the handler
body runs — contradicting the spec's requirement that the gate holds for
every such actor, including when no guild member object is present. -/
theorem c3_admin_gate_skipped_without_member :
    handlePrefixCommand (registerCommand [] purgeCmd) []
      { content := "!purge", authorId := "u1", guild := none,
        memberIsAdmin := none } "!" 0
    = { replies := [], cooldowns := [], handlerInvoked := true,
        usageWrites := [], perfWrites := [] } := by
  decide

/-- C5.  A structured trigger whose command name does not resolve gets
exactly one ephemeral `reply` ("This command is not available."), no
handler body is invoked, and the cooldown store is returned unchanged. -/
theorem c5_unknown_slash_command (reg : Registry) (cds : Cooldowns)
    (i : Interaction)
    (h : getCommand reg (toLowerStr i.commandName) = none) :
    handleSlashCommand reg cds i
      = { replies := [⟨"This command is not available.", true, false⟩],
          cooldowns := cds, handlerInvoked := false,
          usageWrites := [], perfWrites := [] } := by
  simp [handleSlashCommand, h]

/-- Witness for C5 at a concrete unregistered name and nonempty cooldown
store. -/
theorem c5_witness :
    getCommand [] (toLowerStr "nosuch") = none ∧
    handleSlashCommand [] [("k", 5)] { commandName := "nosuch" }
      = { replies := [⟨"This command is not available.", true, false⟩],
          cooldowns := [("k", 5)], handlerInvoked := false,
          usageWrites := [], perfWrites := [] } :=
  ⟨by decide,
    c5_unknown_slash_command [] [("k", 5)] { commandName := "nosuch" }
      (by decide)⟩

/-- C6.  `Performance.measure`: when the operation rejects, exactly one
`PerformanceMetricData` with `success := false` and the given
category/name is emitted (its duration `d1 : Nat` is ≥ 0 by type) and the
original exception value is re-raised unchanged; when it resolves, one
record with `success := true` is emitted and the operation's result is
returned together with the elapsed duration. -/
theorem c6_measure_emits_and_reraises (ε α : Type) (e : ε) (a : α)
    (d1 d2 : Nat) (mt : MetricType) (n : String) :
    measure (Except.error e : Except ε α) d1 d2 mt n
        = ([⟨mt, n, d1, false⟩], Except.error e)
  ∧ measure (Except.ok a : Except ε α) d1 d2 mt n
        = ([⟨mt, n, d1, true⟩], Except.ok (a, d1 + d2)) :=
  ⟨rfl, rfl⟩

/-- Counterexample for C7: one command registered under its name and one
alias, category matching, is returned twice by `getCommandsByCategory` —
not "exactly once". -/
theorem c7_counterexample :
    getCommandsByCategory (registerCommand [] pingCmd) "util"
        = [pingCmd, pingCmd]
  ∧ (getCommandsByCategory (registerCommand [] pingCmd) "util").count pingCmd
        = 2 :=
  ⟨by decide, by decide⟩

/-- C7 (amended).  `getCommandsByCategory` returns one occurrence of a
definition per registry key (name or alias) bound to it whose stored
category matches — per-alias duplicates, not distinct definitions. -/
theorem c7_one_occurrence_per_matching_key (m : Registry) (cat : String)
    (c : Command) :
    (getCommandsByCategory m cat).count c
      = (m.filter (fun p => p.2 == c && p.2.category == some cat)).length := by
  simp [getCommandsByCategory, List.count, List.countP_map,
    List.countP_filter, List.countP_eq_length_filter, List.filter_map,
    List.filter_filter, Function.comp]

/-- C2.  Text-triggered gate pipeline: once a message resolves to a
command, the gates are evaluated guild-only first, then admin-only, then
cooldown, short-circuiting on the first rejection; each rejection produces
exactly the one corresponding reply and nothing else — the handler body is
not invoked, the cooldown store is returned unchanged, and nothing is
persisted. -/
theorem c2_gate_order_and_rejection_frame (reg : Registry) (cds : Cooldowns)
    (msg : Message) (pfx : String) (now : Nat) (rawName : String)
    (rest : List String) (command : Command)
    (hparse : parseArgs msg.content pfx.length = rawName :: rest)
    (hres : getCommand reg (toLowerStr rawName) = some command) :
    (guildGateRejects command msg = true →
       handlePrefixCommand reg cds msg pfx now
         = { replies := ["This command can only be used in a server."],
             cooldowns := cds, handlerInvoked := false,
             usageWrites := [], perfWrites := [] })
  ∧ (guildGateRejects command msg = false →
     adminGateRejects command msg = true →
       handlePrefixCommand reg cds msg pfx now
         = { replies := ["You do not have permission to use this command."],
             cooldowns := cds, handlerInvoked := false,
             usageWrites := [], perfWrites := [] })
  ∧ (∀ cooldownEnd : Nat,
       guildGateRejects command msg = false →
       adminGateRejects command msg = false →
       command.cooldown ≠ 0 →
       mapGet cds (cooldownKey msg.authorId command.name) = some cooldownEnd →
       now < cooldownEnd →
       handlePrefixCommand reg cds msg pfx now
         = { replies := ["Please wait "
               ++ toString ((cooldownEnd - now + 999) / 1000)
               ++ " second(s) before using this command again."],
             cooldowns := cds, handlerInvoked := false,
             usageWrites := [], perfWrites := [] }) := by
  refine ⟨fun hg => ?_, fun hg ha => ?_, fun e hg ha hcd hm hlt => ?_⟩
  · simp [handlePrefixCommand, hparse, hres, hg]
  · simp [handlePrefixCommand, hparse, hres, hg, ha]
  · have hb : (command.cooldown != 0) = true := by simpa [bne_iff_ne] using hcd
    simp [handlePrefixCommand, hparse, hres, hg, ha, hb, hm, hlt]

/-- Witness for C2: one concrete rejection per gate — a guild-only command
in a DM, an admin-only command by a present non-admin member, and a
cooldown-bearing command (invoked via its alias) with a live cooldown
entry. -/
theorem c2_witness :
    (handlePrefixCommand (registerCommand [] serverCmd) [("x", 9)]
        { content := "!serverinfo", authorId := "u1", guild := none,
          memberIsAdmin := none } "!" 0
      = { replies := ["This command can only be used in a server."],
          cooldowns := [("x", 9)], handlerInvoked := false,
          usageWrites := [], perfWrites := [] })
  ∧ (handlePrefixCommand (registerCommand [] purgeCmd) []
        { content := "!purge", authorId := "u1", guild := some "g",
          memberIsAdmin := some false } "!" 0
      = { replies := ["You do not have permission to use this command."],
          cooldowns := [], handlerInvoked := false,
          usageWrites := [], perfWrites := [] })
  ∧ (handlePrefixCommand (registerCommand [] slowCmd) [("u1-slow", 3000)]
        { content := "!s", authorId := "u1", guild := some "g",
          memberIsAdmin := some true } "!" 500
      = { replies := ["Please wait 3 second(s) before using this command again."],
          cooldowns := [("u1-slow", 3000)], handlerInvoked := false,
          usageWrites := [], perfWrites := [] }) := by
  refine ⟨?_, ?_, ?_⟩
  · exact (c2_gate_order_and_rejection_frame (registerCommand [] serverCmd)
      [("x", 9)]
      { content := "!serverinfo", authorId := "u1", guild := none,
        memberIsAdmin := none }
      "!" 0 "serverinfo" [] serverCmd (by decide) (by decide)).1 (by decide)
  · exact (c2_gate_order_and_rejection_frame (registerCommand [] purgeCmd)
      []
      { content := "!purge", authorId := "u1", guild := some "g",
        memberIsAdmin := some false }
      "!" 0 "purge" [] purgeCmd (by decide) (by decide)).2.1
      (by decide) (by decide)
  · have h := (c2_gate_order_and_rejection_frame (registerCommand [] slowCmd)
      [("u1-slow", 3000)]
      { content := "!s", authorId := "u1", guild := some "g",
        memberIsAdmin := some true }
      "!" 500 "s" [] slowCmd (by decide) (by decide)).2.2 3000
      (by decide) (by decide) (by decide) (by decide) (by decide)
    exact h.trans (by decide)

/-- C4.  The check-and-arm logic: with no stored entry, or a stored expiry
not after `now`, it reports ready and arms `now + durationSeconds * 1000`;
with a live entry it reports not-ready with a remaining time that is
positive, at most `durationSeconds` whenever the stored expiry is within
one window of `now`, and leaves the store untouched.  In particular, from
an empty store, `checkAndArm u c 5` is ready and arms a 5-second window,
an immediate second call is not-ready with exactly 5 seconds remaining and
does not change the store, and a call 5000 ms later is ready again. -/
theorem c4_checkAndArm_contract (cds : Cooldowns) (u c : String)
    (dur now : Nat) :
    (mapGet cds (cooldownKey u c) = none →
       checkAndArm cds u c dur now
         = (none, mapSet cds (cooldownKey u c) (now + dur * 1000)))
  ∧ (∀ e, mapGet cds (cooldownKey u c) = some e → e ≤ now →
       checkAndArm cds u c dur now
         = (none, mapSet cds (cooldownKey u c) (now + dur * 1000)))
  ∧ (∀ e, mapGet cds (cooldownKey u c) = some e → now < e →
       checkAndArm cds u c dur now = (some ((e - now + 999) / 1000), cds)
         ∧ 0 < (e - now + 999) / 1000
         ∧ (e ≤ now + dur * 1000 → (e - now + 999) / 1000 ≤ dur))
  ∧ checkAndArm [] u c 5 now
      = (none, [(cooldownKey u c, now + 5 * 1000)])
  ∧ checkAndArm [(cooldownKey u c, now + 5 * 1000)] u c 5 now
      = (some 5, [(cooldownKey u c, now + 5 * 1000)])
  ∧ (checkAndArm [(cooldownKey u c, now + 5 * 1000)] u c 5 (now + 5000)).1
      = none := by
  refine ⟨fun hm => ?_, fun e hm hle => ?_, fun e hm hlt => ⟨?_, ?_, fun hwin => ?_⟩,
    ?_, ?_, ?_⟩
  · simp [checkAndArm, hm]
  · have hnlt : ¬ now < e := by omega
    simp [checkAndArm, hm, hnlt]
  · simp [checkAndArm, hm, hlt]
  · omega
  · omega
  · simp [checkAndArm, mapGet, mapSet]
  · have hlt : now < now + 5 * 1000 := by omega
    have harith : (now + 5 * 1000 - now + 999) / 1000 = 5 := by omega
    simp [checkAndArm, mapGet, hlt, harith]
  · have hnlt : ¬ now + 5000 < now + 5 * 1000 := by omega
    simp [checkAndArm, mapGet, hnlt]

/-- Witness for C4: an expired entry re-arms, a live entry reports its
(positive, window-bounded) remaining time without touching the store. -/
theorem c4_witness :
    checkAndArm [("u-c", 50)] "u" "c" 7 100 = (none, [("u-c", 7100)])
  ∧ checkAndArm [("u-c", 7100)] "u" "c" 7 100 = (some 7, [("u-c", 7100)])
  ∧ (7100 - 100 + 999) / 1000 ≤ 7 := by
  refine ⟨?_, ?_, ?_⟩
  · exact ((c4_checkAndArm_contract [("u-c", 50)] "u" "c" 7 100).2.1 50
      (by decide) (by decide)).trans (by decide)
  · exact (((c4_checkAndArm_contract [("u-c", 7100)] "u" "c" 7 100).2.2.1 7100
      (by decide) (by decide)).1).trans (by decide)
  · exact ((c4_checkAndArm_contract [("u-c", 7100)] "u" "c" 7 100).2.2.1 7100
      (by decide) (by decide)).2.2 (by decide)

/-- C10.  On the text path, a cooldown-bearing command that passes all
gates arms the entry keyed by the actor's id and the command's canonical
`name` (so alias invocations share it) to `now + cooldown * 1000`, and the
resulting store is the same whether the handler body is present, absent,
or throws. -/
theorem c10_cooldown_armed_regardless_of_handler (reg : Registry)
    (cds : Cooldowns) (msg : Message) (pfx : String) (now : Nat)
    (rawName : String) (rest : List String) (command : Command)
    (hparse : parseArgs msg.content pfx.length = rawName :: rest)
    (hres : getCommand reg (toLowerStr rawName) = some command)
    (hguild : guildGateRejects command msg = false)
    (hadmin : adminGateRejects command msg = false)
    (hcd : command.cooldown ≠ 0)
    (hready : ∀ e, mapGet cds (cooldownKey msg.authorId command.name) = some e
       → e ≤ now) :
    (handlePrefixCommand reg cds msg pfx now).cooldowns
      = mapSet cds (cooldownKey msg.authorId command.name)
          (now + command.cooldown * 1000) := by
  have hb : (command.cooldown != 0) = true := by simpa [bne_iff_ne] using hcd
  cases hm : mapGet cds (cooldownKey msg.authorId command.name) with
  | none =>
    cases hex : command.execute with
    | none => simp [handlePrefixCommand, hparse, hres, hguild, hadmin, hb, hm, hex]
    | some ho =>
      cases ho <;>
        simp [handlePrefixCommand, hparse, hres, hguild, hadmin, hb, hm, hex]
  | some e =>
    have hnlt : ¬ now < e := by have := hready e hm; omega
    cases hex : command.execute with
    | none =>
      simp [handlePrefixCommand, hparse, hres, hguild, hadmin, hb, hm, hnlt, hex]
    | some ho =>
      cases ho <;>
        simp [handlePrefixCommand, hparse, hres, hguild, hadmin, hb, hm, hnlt, hex]

/-- Witness for C10: the throwing `slow` handler invoked via its alias
`s` over an expired entry still arms `u1-slow` to `now + 5000`. -/
theorem c10_witness :
    (handlePrefixCommand (registerCommand [] slowCmd) [("u1-slow", 400)]
        { content := "!s x", authorId := "u1", guild := some "g",
          memberIsAdmin := some true } "!" 1000).cooldowns
      = [("u1-slow", 6000)] := by
  have h := c10_cooldown_armed_regardless_of_handler
    (registerCommand [] slowCmd) [("u1-slow", 400)]
    { content := "!s x", authorId := "u1", guild := some "g",
      memberIsAdmin := some true } "!" 1000 "s" ["x"] slowCmd
    (by decide) (by decide) (by decide) (by decide) (by decide)
    (by intro e he
        have : (400 : Nat) = e := by
          simpa [mapGet, cooldownKey, slowCmd] using he
        omega)
  exact h.trans (by decide)

/-- Every member of `insertByCountDesc x l` is `x` or a member of `l`. -/
theorem mem_insertByCountDesc {x z : String × Nat} {l : List (String × Nat)}
    (h : z ∈ insertByCountDesc x l) : z = x ∨ z ∈ l := by
  induction l with
  | nil => simpa [insertByCountDesc] using h
  | cons y ys ih =>
    simp only [insertByCountDesc] at h
    by_cases hc : y.2 < x.2
    · rw [if_pos hc] at h
      exact List.mem_cons.mp h
    · rw [if_neg hc] at h
      rcases List.mem_cons.mp h with h1 | h2
      · exact Or.inr (h1 ▸ List.mem_cons_self y ys)
      · rcases ih h2 with h3 | h4
        · exact Or.inl h3
        · exact Or.inr (List.mem_cons_of_mem y h4)

/-- Inserting into a count-descending list keeps it count-descending. -/
theorem sorted_insertByCountDesc (x : String × Nat) {l : List (String × Nat)}
    (h : l.Pairwise (fun a b => b.2 ≤ a.2)) :
    (insertByCountDesc x l).Pairwise (fun a b => b.2 ≤ a.2) := by
  induction l with
  | nil => simp [insertByCountDesc]
  | cons y ys ih =>
    rcases List.pairwise_cons.mp h with ⟨hy, hys⟩
    simp only [insertByCountDesc]
    by_cases hc : y.2 < x.2
    · rw [if_pos hc]
      refine List.pairwise_cons.mpr ⟨?_, h⟩
      intro z hz
      rcases List.mem_cons.mp hz with rfl | hz2
      · exact Nat.le_of_lt hc
      · exact Nat.le_trans (hy z hz2) (Nat.le_of_lt hc)
    · rw [if_neg hc]
      refine List.pairwise_cons.mpr ⟨?_, ih hys⟩
      intro z hz
      rcases mem_insertByCountDesc hz with rfl | hz2
      · exact Nat.le_of_not_lt hc
      · exact hy z hz2

/-- Folding insertions keeps the accumulator count-descending. -/
theorem sorted_foldl_insertByCountDesc (l : List (String × Nat))
    (acc : List (String × Nat)) (h : acc.Pairwise (fun a b => b.2 ≤ a.2)) :
    (l.foldl (fun acc x => insertByCountDesc x acc) acc).Pairwise
      (fun a b => b.2 ≤ a.2) := by
  induction l generalizing acc with
  | nil => simpa using h
  | cons x xs ih => exact ih _ (sorted_insertByCountDesc x h)

/-- The output of `sortByCountDesc` is count-descending. -/
theorem sorted_sortByCountDesc (l : List (String × Nat)) :
    (sortByCountDesc l).Pairwise (fun a b => b.2 ≤ a.2) :=
  sorted_foldl_insertByCountDesc l [] (by simp)

/-- Counterexample for C8: with stored counts `{a: 3, b: 3, c: 1}` where
`b` is first seen before `a`, the query returns `[b, a]` — not the
lexically tie-broken `[a, b]` the spec promises. -/
theorem c8_counterexample :
    getMostUsedCommands c8Records [] 2 none = [("b", 3), ("a", 3)]
  ∧ getMostUsedCommands c8Records [] 2 none ≠ [("a", 3), ("b", 3)] :=
  ⟨by decide, by decide⟩

/-- C8 (amended).  `getMostUsedCommands` orders descending by count and
truncates to `limit`; equal counts keep the group enumeration
(first-occurrence) order — the query requests no lexical tiebreak. -/
theorem c8_sorted_desc_and_truncated (store : List UsageRow)
    (guilds : List (String × String)) (limit : Nat)
    (guildId : Option String) :
    (getMostUsedCommands store guilds limit guildId).Pairwise
        (fun a b => b.2 ≤ a.2)
  ∧ (getMostUsedCommands store guilds limit guildId).length ≤ limit := by
  refine ⟨?_, ?_⟩ <;> simp only [getMostUsedCommands]
  · exact List.Pairwise.sublist (List.take_sublist _ _)
      (sorted_sortByCountDesc _)
  · exact List.length_take_le _ _

/-- Folding `statsBump` over rows that all carry one command updates that
command's single entry: count grows by the row count, successes by the
successful-row count, durations by the truthiness-kept durations. -/
theorem statsFold_single (c : String) (rows : List UsageRow) (a : StatsAcc)
    (h : ∀ r ∈ rows, r.command = c) :
    rows.foldl statsBump [(c, a)]
      = [(c, ⟨a.count + rows.length,
              a.successes + successCount rows,
              a.durations ++ keptDurations rows⟩)] := by
  induction rows generalizing a with
  | nil => simp [successCount, keptDurations]
  | cons r rs ih =>
    have hr : r.command = c := h r (List.mem_cons_self r rs)
    have hrs : ∀ x ∈ rs, x.command = c :=
      fun x hx => h x (List.mem_cons_of_mem r hx)
    have hb : statsBump [(c, a)] r = [(c, statsUpdate a r)] := by
      simp [statsBump, hr]
    rw [List.foldl_cons, hb, ih _ hrs]
    rcases ht : truthyDuration r with _ | d <;> by_cases hs : r.success <;>
      simp [statsUpdate, successCount, keptDurations, hs, ht,
        List.filter_cons, List.filterMap_cons] <;> omega

/-- Counterexample for C9: of two records for command `a` carrying
durations `0` and `10`, only the nonzero one enters the average
(`avgDuration = 10`), although averaging over every duration-carrying
record would give `(0 + 10) / 2 = 5 ≠ 10` — JavaScript truthiness drops
the `0`-duration record from the denominator. -/
theorem c9_counterexample :
    getCommandStats c9Rows [] none 0
      = [{ command := "a", count := 2, successRate := 1, avgDuration := 10 }]
  ∧ ((0 : ℚ) + 10) / 2 ≠ 10 := by
  constructor
  · norm_num [c9Rows, getCommandStats, statsBump, statsUpdate,
      truthyDuration, resolveGuildDbId]
  · norm_num

/-- C9 (amended).  For a group of usage records, `getCommandStats`
averages exactly the durations kept by the truthiness test — records
whose duration is absent **or zero** are excluded from both the sum and
the denominator; every record with a present nonzero duration
contributes. -/
theorem c9_group_average_denominator (c : String) (rows : List UsageRow)
    (h : ∀ r ∈ rows, r.command = c) :
    getCommandStats rows [] none 0
      = if rows.isEmpty then []
        else [{ command := c, count := rows.length,
                successRate := (successCount rows : ℚ) / (rows.length : ℚ),
                avgDuration :=
                  if (keptDurations rows).isEmpty then 0
                  else ((keptDurations rows).sum : ℚ)
                        / ((keptDurations rows).length : ℚ) }] := by
  cases rows with
  | nil => simp [getCommandStats]
  | cons r rs =>
    have hr : r.command = c := h r (List.mem_cons_self r rs)
    have hrs : ∀ x ∈ rs, x.command = c :=
      fun x hx => h x (List.mem_cons_of_mem r hx)
    have hfold : (r :: rs).foldl statsBump []
        = [(c, ⟨(r :: rs).length, successCount (r :: rs),
                keptDurations (r :: rs)⟩)] := by
      rw [List.foldl_cons]
      have hb : statsBump [] r = [(c, statsUpdate ⟨0, 0, []⟩ r)] := by
        simp [statsBump, hr]
      rw [hb, statsFold_single c rs _ hrs]
      rcases ht : truthyDuration r with _ | d <;> by_cases hs : r.success <;>
        simp [statsUpdate, successCount, keptDurations, hs, ht,
          List.filter_cons, List.filterMap_cons] <;> omega
    simp only [getCommandStats]
    have hfilter : List.filter (fun x => decide (0 ≤ x.createdAt) && true)
        (r :: rs) = r :: rs := by simp
    rw [hfilter, hfold]
    rcases hk : keptDurations (r :: rs) with _ | ⟨d, ds⟩ <;>
      simp [hk, Nat.succ_pos]

/-- Witness for C9 at the two-record fixture: the kept durations are
`[10]` (the `0` duration is dropped), so the average is `10/1 = 10`. -/
theorem c9_witness :
    getCommandStats c9Rows [] none 0
      = [{ command := "a", count := 2, successRate := 1, avgDuration := 10 }] := by
  have h := c9_group_average_denominator "a" c9Rows (by decide)
  refine h.trans ?_
  have h2 : keptDurations c9Rows = [10] := by decide
  have h3 : successCount c9Rows = 2 := by decide
  have h4 : c9Rows.length = 2 := by decide
  have h5 : c9Rows.isEmpty = false := by decide
  norm_num [h2, h3, h4, h5]

end BotTemplate
